import Mathlib

/-!
Verification of the business-agent tool-calling conversation loop.

The development shallowly embeds the two turn controllers of the repository:

* `AgentCore` models `agent_core.py` — the single-dispatch variant
  (`chat_once`), the capability registry (`TOOL_REGISTRY`), and the two
  side-effecting handlers (`record_customer_interest`, `record_feedback`).
  File side effects are threaded through an explicit `FileState`; the
  external model service is a parameter (`Oracle`); the external JSON
  decoder (`json.loads`) is a parameter `jd`; Python exceptions are an
  `Except PyError` result.  `chat_once` additionally returns the trace of
  model-completion calls it issued (`CallKind`), in order.

* `ReactAgent` models `react_agent.py` — the iterative-loop variant
  (`run_once`), the two-node graph (`graphRun` embeds the agent/tools loop
  built in `build_react_agent`, with the LangGraph engine's add-messages
  reducer as list append and `ToolNode` as a total result function), and
  the tool-activity summary computation.  `run_once` additionally returns
  the list of arguments passed to `graph.invoke`, in order.

* `HeapModel` re-embeds `run_once` with Python lists as references into an
  explicit store, to state frame properties about mutation.
-/

namespace AgentCore

/-- The double-quote character, `chr(34)` in the source. -/
def dquote : Char := Char.ofNat 34

/-- The single-quote character, `chr(39)` in the source. -/
def squote : Char := Char.ofNat 39

/-- One-character string holding a double quote. -/
def dq : String := String.singleton dquote

/-- Message roles of the OpenAI chat format used by `agent_core.py`. -/
inductive Role
  | system
  | user
  | assistant
  | tool
deriving DecidableEq

/-- One tool call as carried by an assistant message (`tc` in the source):
`tc.id`, `tc.function.name`, `tc.function.arguments` (a raw JSON string,
`none` models Python `None`). -/
structure ToolCall where
  id : String
  name : String
  arguments : Option String
deriving DecidableEq

/-- One conversation message, mirroring the dicts built by `chat_once`.
Fields absent from a given dict keep their defaults. -/
structure Msg where
  role : Role
  content : Option String
  tool_calls : List ToolCall := []
  tool_call_id : Option String := none
  name : Option String := none
deriving DecidableEq

/-- The two append-only log files (`leads.csv`, `feedback.log`) as lists of
lines. -/
structure FileState where
  leads : List String := []
  feedback : List String := []
deriving DecidableEq

/-- A Python exception escaping a call (only `TypeError` arises in the
embedded fragment: bad keyword binding of `func(**args)`). -/
inductive PyError
  | typeError
deriving DecidableEq

/-- Result of `json.loads` on tool-call arguments: a JSON object with
string values, or some other JSON value (list, number, ...), which
`func(**args)` rejects.  Decode *failure* is `none` at the call site. -/
inductive JsonVal
  | jobj (entries : List (String × String))
  | jother
deriving DecidableEq

/-- Python `str.rstrip()` as used by `_append_line`: drop trailing whitespace
characters. -/
def pyRstrip (s : String) : String :=
  ⟨(s.data.reverse.dropWhile (fun c => c.isWhitespace)).reverse⟩

/-- The normalization `message.replace(chr(34), chr(39))` — single-character replacement,
rendered as a character map. -/
def normQuotes (s : String) : String :=
  ⟨s.data.map (fun c => if c = dquote then squote else c)⟩

/-- The CSV record built by `record_customer_interest`:
`f-string email,"name","message-with-quotes-normalized"`. -/
def leadLine (email name message : String) : String :=
  email ++ "," ++ dq ++ name ++ dq ++ "," ++ dq ++ normQuotes message ++ dq

/-- Handler `record_customer_interest(email, name, message="")`: appends the lead
record (via `_append_line`, which rstrips and adds the line terminator)
and returns a confirmation string.  The console `print` has no modelled
effect. -/
def record_customer_interest (email name : String) (message : String := "")
    (fs : FileState) : String × FileState :=
  let recLine := leadLine email name message
  ("Recorded lead for " ++ name ++ " <" ++ email ++ ">.",
   { fs with leads := fs.leads ++ [pyRstrip recLine] })

/-- Handler `record_feedback(question)`: appends the raw question line and returns
a fixed confirmation. -/
def record_feedback (question : String) (fs : FileState) : String × FileState :=
  ("Logged the question for follow-up.",
   { fs with feedback := fs.feedback ++ [pyRstrip question] })

/-- Keyword lookup in a decoded JSON object. -/
def lookupArg (args : List (String × String)) (k : String) : Option String :=
  (args.find? (fun kv => kv.1 == k)).map (·.2)

/-- Python call binding `record_customer_interest(**args)`: `email` and
`name` are required, `message` optional, any other keyword is a
`TypeError`. -/
def call_record_customer_interest (args : List (String × String)) (fs : FileState) :
    Except PyError (String × FileState) :=
  if args.all (fun kv => kv.1 == "email" || kv.1 == "name" || kv.1 == "message") then
    match lookupArg args "email", lookupArg args "name" with
    | some email, some name =>
        .ok (record_customer_interest email name ((lookupArg args "message").getD "") fs)
    | _, _ => .error .typeError
  else .error .typeError

/-- Python call binding `record_feedback(**args)`: `question` required,
no other keyword accepted. -/
def call_record_feedback (args : List (String × String)) (fs : FileState) :
    Except PyError (String × FileState) :=
  if args.all (fun kv => kv.1 == "question") then
    match lookupArg args "question" with
    | some q => .ok (record_feedback q fs)
    | none => .error .typeError
  else .error .typeError

/-- A registered handler: decoded arguments and file state to result text
and new file state, or a raised exception. -/
abbrev Handler := List (String × String) → FileState → Except PyError (String × FileState)

/-- The `TOOL_REGISTRY` of `agent_core.py`. -/
def TOOL_REGISTRY : List (String × Handler) :=
  [("record_customer_interest", call_record_customer_interest),
   ("record_feedback", call_record_feedback)]

/-- Lookup `TOOL_REGISTRY.get(name)`. -/
def registryGet (n : String) : Option Handler :=
  (TOOL_REGISTRY.find? (fun kv => kv.1 == n)).map (·.2)

/-- Names in `TOOL_REGISTRY`, in registration order. -/
def registryNames : List String := TOOL_REGISTRY.map (·.1)

/-- The `function.name` entries of the `OPENAI_TOOLS` schema list, in
order — the capability catalogue the single-dispatch variant declares to
the model. -/
def openaiToolNames : List String := ["record_customer_interest", "record_feedback"]

/-- The message returned by one model completion
(`resp.choices[0].message`). -/
structure ModelMsg where
  content : Option String
  tool_calls : List ToolCall := []

/-- The external model service: one completion function for calls that
declare `OPENAI_TOOLS` and one for calls that omit them (the only two
call shapes in `chat_once`). -/
structure Oracle where
  withTools : List Msg → ModelMsg
  noTools : List Msg → ModelMsg

/-- Which catalogue shape a model-completion call used. -/
inductive CallKind
  | withTools
  | noTools
deriving DecidableEq

/-- The user message appended at the start of a turn. -/
def userMsg (t : String) : Msg := { role := .user, content := some t }

/-- The per-tool-call assistant message
`{"role": "assistant", "tool_calls": [tc], "content": None}`. -/
def assistantToolCallMsg (tc : ToolCall) : Msg :=
  { role := .assistant, content := none, tool_calls := [tc] }

/-- The tool-result message
`{"role": "tool", "tool_call_id": tc.id, "name": name, "content": r}`. -/
def toolResultMsg (tc : ToolCall) (r : String) : Msg :=
  { role := .tool, content := some r, tool_call_id := some tc.id, name := some tc.name }

/-- A plain assistant text message. -/
def assistantTextMsg (t : String) : Msg := { role := .assistant, content := some t }

/-- The `for tc in msg.tool_calls` loop of `chat_once`: raw arguments are
defaulted to the empty object when falsy, decode failure substitutes an
empty mapping, an unregistered name substitutes the "not implemented"
notice.  Assistant tool-call messages are appended to `history` inside
the loop; tool-result messages accumulate in `toolMsgs` and are extended
onto the history only by the caller, as in the source.  A raised handler
exception aborts the loop. -/
def toolLoop (jd : String → Option JsonVal) :
    List ToolCall → List Msg → List Msg → FileState →
    Except PyError (List Msg × List Msg × FileState)
  | [], history, toolMsgs, fs => .ok (history, toolMsgs, fs)
  | tc :: rest, history, toolMsgs, fs =>
    let raw := match tc.arguments with
      | none => "\x7b\x7d"
      | some s => if s == "" then "\x7b\x7d" else s
    let argsVal := (jd raw).getD (JsonVal.jobj [])
    match registryGet tc.name with
    | none =>
        toolLoop jd rest (history ++ [assistantToolCallMsg tc])
          (toolMsgs ++ [toolResultMsg tc ("Tool " ++ tc.name ++ " not implemented.")]) fs
    | some f =>
        match argsVal with
        | .jother => .error .typeError
        | .jobj args =>
          match f args fs with
          | .error e => .error e
          | .ok (res, fs2) =>
              toolLoop jd rest (history ++ [assistantToolCallMsg tc])
                (toolMsgs ++ [toolResultMsg tc res]) fs2

/-- Function `chat_once(history, user_text)` of `agent_core.py`.  Returns the
Python return value (extended history, final text) together with the
final `FileState`, or the escaped exception; the second component is the
instrumented trace of model-completion calls issued, in order
(`withTools` = call passing `tools=OPENAI_TOOLS`, `noTools` = call
without a catalogue). -/
def chat_once (oracle : Oracle) (jd : String → Option JsonVal)
    (history : List Msg) (user_text : String) (fs : FileState) :
    Except PyError (List Msg × String × FileState) × List CallKind :=
  let h1 := history ++ [userMsg user_text]
  let msg := oracle.withTools h1
  match msg.tool_calls with
  | [] =>
      (.ok (h1 ++ [assistantTextMsg (msg.content.getD "")], msg.content.getD "", fs),
       [.withTools])
  | tc :: rest =>
    match toolLoop jd (tc :: rest) h1 [] fs with
    | .error e => (.error e, [.withTools])
    | .ok (h2, tms, fs2) =>
      let h3 := h2 ++ tms
      let follow := oracle.noTools h3
      let finalText := follow.content.getD ""
      (.ok (h3 ++ [assistantTextMsg finalText], finalText, fs2),
       [.withTools, .noTools])

/-- Function `new_conversation()`: the singleton list holding the system message
(the system prompt text is a parameter; its construction from the
business documents is outside the core). -/
def new_conversation (systemPrompt : String) : List Msg :=
  [{ role := .system, content := some systemPrompt }]

/-- The pairing invariant of the spec, as a decidable check: every
tool-result message is immediately preceded by an assistant message one
of whose tool calls has that result's `tool_call_id`. -/
def pairingOKFrom : Option Msg → List Msg → Bool
  | _, [] => true
  | prev, m :: rest =>
    (if m.role == Role.tool then
      match prev with
      | some p =>
          (p.role == Role.assistant) &&
            p.tool_calls.any (fun tc => m.tool_call_id == some tc.id)
      | none => false
     else true) && pairingOKFrom (some m) rest

/-- Pairing invariant over a whole conversation. -/
def pairingOK (msgs : List Msg) : Bool := pairingOKFrom none msgs

/-- A model service whose first response carries two capability requests
for unregistered tools, and whose follow-up call answers plainly. -/
def oracleTwoCalls : Oracle :=
  { withTools := fun _ =>
      { content := none,
        tool_calls := [⟨"idA", "alpha", none⟩, ⟨"idB", "beta", none⟩] },
    noTools := fun _ => { content := some "done", tool_calls := [] } }

/-- A JSON decoder that fails on every input (the inputs fed to it in the
counterexamples are not valid JSON). -/
def jdFail : String → Option JsonVal := fun _ => none

/-- The conversation `chat_once` produces from `oracleTwoCalls`: both
assistant tool-call messages precede both tool-result messages. -/
def msgsTwoCalls : List Msg :=
  [userMsg "hi",
   assistantToolCallMsg ⟨"idA", "alpha", none⟩,
   assistantToolCallMsg ⟨"idB", "beta", none⟩,
   toolResultMsg ⟨"idA", "alpha", none⟩ "Tool alpha not implemented.",
   toolResultMsg ⟨"idB", "beta", none⟩ "Tool beta not implemented.",
   assistantTextMsg "done"]

/-- A model service whose first response requests
`record_customer_interest` with arguments that are not valid JSON. -/
def oracleBadArgs : Oracle :=
  { withTools := fun _ =>
      { content := none,
        tool_calls := [⟨"id1", "record_customer_interest", some "not json"⟩] },
    noTools := fun _ => { content := some "done", tool_calls := [] } }

end AgentCore

open AgentCore in
/-- C1 (code bug): when the first model response carries two capability
requests, `chat_once` appends both assistant tool-call messages first and
both tool-result messages after them, so the message immediately
preceding a tool-result message is not the assistant message holding its
request identity: the pairing invariant fails on the produced
conversation. -/
theorem chat_once_two_calls_breaks_pairing :
    chat_once oracleTwoCalls jdFail [] "hi" ⟨[], []⟩ =
      (Except.ok (msgsTwoCalls, "done", ⟨[], []⟩),
       [CallKind.withTools, CallKind.noTools]) ∧
    pairingOK msgsTwoCalls = false := by
  constructor
  · rfl
  · rfl

open AgentCore in
/-- C2 (code bug): when argument decoding fails for a request naming the
registered tool `record_customer_interest`, `chat_once` substitutes the
empty argument set and then calls the handler with it, which raises
`TypeError` (missing required arguments `email`, `name`): the turn aborts
with an exception after the single model call instead of completing with
a final answer. -/
theorem chat_once_decode_failure_raises :
    chat_once oracleBadArgs jdFail [] "hello" ⟨[], []⟩ =
      (Except.error PyError.typeError, [CallKind.withTools]) := by
  rfl

open AgentCore in
/-- C3: every turn of the single-dispatch variant issues either exactly
one model-completion call (carrying the capability catalogue) or exactly
two, and the second call, when issued, is the one that omits the
catalogue — regardless of the model, the decoder, the history, the user
text and the file state. -/
theorem chat_once_at_most_two_model_calls (oracle : Oracle)
    (jd : String → Option JsonVal) (history : List Msg) (user_text : String)
    (fs : FileState) :
    (chat_once oracle jd history user_text fs).2 = [CallKind.withTools] ∨
    (chat_once oracle jd history user_text fs).2 =
      [CallKind.withTools, CallKind.noTools] := by
  unfold chat_once
  dsimp only
  split
  · exact Or.inl rfl
  · split
    · exact Or.inl rfl
    · exact Or.inr rfl

namespace ReactAgent

/-- A LangChain tool call carried by an AI message:
`{"name": ..., "args": ..., "id": ...}`.  `args` is the decoded argument
mapping (string values; `none` models a missing/`None` args field). -/
structure RToolCall where
  name : String
  args : Option (List (String × String))
  id : String
deriving DecidableEq

/-- LangChain messages as used by `react_agent.py`: `SystemMessage`,
`HumanMessage`, `AIMessage` (with its `tool_calls`), `ToolMessage` (with
its optional `name` and its `tool_call_id`). -/
inductive RMsg
  | system (content : String)
  | human (content : String)
  | ai (content : String) (tool_calls : List RToolCall)
  | tool (content : String) (name : Option String) (tool_call_id : String)
deriving DecidableEq

/-- One response of the bound LLM inside the graph's agent node. -/
structure AIResp where
  content : String
  tool_calls : List RToolCall

/-- The tool-execution backend of the graph's `ToolNode`
(`handle_tool_errors=True`: execution is total, errors become result
text). -/
structure ToolEnv where
  run : String → Option (List (String × String)) → String

/-- The compiled graph of `build_react_agent`, executed from `START`:
the agent node appends the model response; the router sends it to the
tool node when it carries tool calls (the tool node appends one
`ToolMessage` per call, in order) and back to the agent node, otherwise
to `END`.  The LangGraph `add_messages` reducer is list append.  `fuel`
bounds the number of reason/act rounds; `none` means the run did not
terminate within that bound (the source loop has no cap of its own). -/
def graphRun (llm : List RMsg → AIResp) (env : ToolEnv) :
    Nat → List RMsg → Option (List RMsg)
  | 0, _ => none
  | n + 1, msgs =>
    let r := llm msgs
    let withAI := msgs ++ [RMsg.ai r.content r.tool_calls]
    match r.tool_calls with
    | [] => some withAI
    | _ :: _ =>
        graphRun llm env n
          (withAI ++ r.tool_calls.map
            (fun tc => RMsg.tool (env.run tc.name tc.args) (some tc.name) tc.id))

/-- Number of AI messages in a message list (counts reason rounds). -/
def countAI (msgs : List RMsg) : Nat :=
  msgs.countP (fun m => match m with | .ai _ _ => true | _ => false)

/-- The final-text extraction of `run_once`: content of the last
`AIMessage`, scanning the list from the end; `""` when there is none
(`msg.content or ""` collapses nothing further, contents are strings). -/
def lastAIFrom : List RMsg → String
  | [] => ""
  | RMsg.ai c _ :: _ => c
  | _ :: rest => lastAIFrom rest

/-- Content of the last AI message of a list. -/
def lastAIContent (msgs : List RMsg) : String := lastAIFrom msgs.reverse

/-- Python `repr` of a string value without control characters: double
quotes are used when the value contains a single quote and no double
quote, single quotes otherwise; backslashes and quotes are escaped. -/
def pyRepr (s : String) : String :=
  let e := s.replace "\\" "\\\\"
  if s.contains AgentCore.squote && !(s.contains AgentCore.dquote) then
    AgentCore.dq ++ e ++ AgentCore.dq
  else
    String.singleton AgentCore.squote ++
      e.replace (String.singleton AgentCore.squote)
        ("\\" ++ String.singleton AgentCore.squote) ++
      String.singleton AgentCore.squote

/-- One entry of `tool_logs` inside `run_once`: captured name, rendered
arguments, and the result filled in when a tool message is matched. -/
structure LogEntry where
  name : String
  args : String
  result : Option String
deriving DecidableEq

/-- Helper `_capture_tool_call` of `run_once`: a falsy name becomes
`unknown_tool`; dict arguments render as `k=repr(v)` joined by commas, a
missing args field renders as `repr(None)`.  (The branch re-decoding
string-typed args is not exercised: the engine hands decoded mappings.)
The call's request id is not captured. -/
def captureToolCall (tc : RToolCall) : LogEntry :=
  { name := if tc.name == "" then "unknown_tool" else tc.name,
    args := match tc.args with
      | some d => String.intercalate ", " (d.map (fun kv => kv.1 ++ "=" ++ pyRepr kv.2))
      | none => "None",
    result := none }

/-- The reversed scan of `tool_logs` performed for each `ToolMessage`:
fill the result of the most recent entry that is still unresolved and
whose name matches (a tool message without a name matches any unresolved
entry).  Returns the updated entries and whether a match happened. -/
def resolveFromRight (nm : Option String) (content : String) :
    List LogEntry → List LogEntry × Bool
  | [] => ([], false)
  | e :: rest =>
    let (rest2, done) := resolveFromRight nm content rest
    if done then (e :: rest2, true)
    else if e.result == none && (nm == none || nm == some e.name) then
      ({ e with result := some content } :: rest2, true)
    else (e :: rest2, false)

/-- The `for msg in delta_messages` loop of `run_once`: AI messages push
one entry per tool call (an AI message with no tool calls pushes
nothing), tool messages resolve by the reversed scan, other messages are
ignored. -/
def summaryLoop : List RMsg → List LogEntry → List LogEntry
  | [], acc => acc
  | RMsg.ai _ tcs :: ms, acc => summaryLoop ms (acc ++ tcs.map captureToolCall)
  | RMsg.tool content nm _ :: ms, acc => summaryLoop ms (resolveFromRight nm content acc).1
  | _ :: ms, acc => summaryLoop ms acc

/-- Rendering of one entry: `name(args)` with ` -> result` appended only
when the result is present and non-empty (`if entry["result"]:`). -/
def renderEntry (e : LogEntry) : String :=
  let s := e.name ++ "(" ++ e.args ++ ")"
  match e.result with
  | some r => if r == "" then s else s ++ " -> " ++ r
  | none => s

/-- The tool-activity summaries `run_once` computes from the
delta between post-call and pre-call message lists. -/
def computeSummaries (delta : List RMsg) : List String :=
  (summaryLoop delta []).map renderEntry

/-- The canned apology of the double-failure path of `run_once`. -/
def safe_reply : String :=
  "I" ++ String.singleton AgentCore.squote ++
    "m sorry—something went wrong on my side while processing that. " ++
    "Could you try again with the same question?"

/-- The result tuple of `run_once`:
`(new_state.messages, final_text, tool_summaries, error_logs)`, plus the
instrumented list of message lists passed to `graph.invoke`, in order. -/
structure RunResult where
  state : List RMsg
  final_text : String
  tool_summaries : List String
  error_logs : List String
  invocations : List (List RMsg)
deriving DecidableEq

/-- Function `run_once(graph, state, user_text)` of `react_agent.py`, parameterized
by the engine invocation (`Except.error` = `InvalidUpdateError`, carrying
the exception text; the engine returns fresh structures).  The
well-typed-state normalization branches and the non-dict-result coercion
are identities in this typed embedding; `_invoke_with_messages` passes a
copy, which is the same value. -/
def run_once (invoke : List RMsg → Except String (List RMsg))
    (stateMsgs : List RMsg) (user_text : String) : RunResult :=
  let baseline := stateMsgs
  let human := RMsg.human user_text
  let candidate := baseline ++ [human]
  match invoke candidate with
  | .ok result =>
      { state := result,
        final_text := lastAIContent result,
        tool_summaries := computeSummaries (result.drop baseline.length),
        error_logs := [],
        invocations := [candidate] }
  | .error e1 =>
    let fallback := baseline.take 1 ++ [human]
    match invoke fallback with
    | .ok result =>
        { state := result,
          final_text := lastAIContent result,
          tool_summaries := computeSummaries (result.drop baseline.length),
          error_logs := ["InvalidUpdateError primary invoke: " ++ e1],
          invocations := [candidate, fallback] }
    | .error e2 =>
        { state := fallback ++ [RMsg.ai safe_reply []],
          final_text := safe_reply,
          tool_summaries := [],
          error_logs := ["InvalidUpdateError primary invoke: " ++ e1,
                         "InvalidUpdateError fallback invoke: " ++ e2],
          invocations := [candidate, fallback] }

/-- The graph invocation used when `run_once` drives the embedded graph:
a run that exhausts its round budget is reported as an engine error. -/
def graphInvoke (llm : List RMsg → AIResp) (env : ToolEnv) (fuel : Nat) :
    List RMsg → Except String (List RMsg) := fun msgs =>
  match graphRun llm env fuel msgs with
  | some out => .ok out
  | none => .error "unterminated"

/-- A tool backend returning empty result text. -/
def envTrivial : ToolEnv := ⟨fun _ _ => ""⟩

/-- A model that immediately answers plainly with empty content. -/
def llmEmptyPlain : List RMsg → AIResp := fun _ => ⟨"", []⟩

/-- A model that immediately answers plainly with `"ok"`. -/
def llmPlainOk : List RMsg → AIResp := fun _ => ⟨"ok", []⟩

end ReactAgent

open ReactAgent in
/-- C4: when the primary graph invocation fails with a state-merge
conflict and the retry over the reduced list (first message of the
conversation, i.e. its system message, plus only the new user message)
fails the same way, `run_once` performs exactly those two invocations and
returns — without raising — the canned apology as final text, appended as
an assistant message onto the reduced list, with zero tool activity and
both failures logged. -/
theorem run_once_merge_conflict_retry_and_apology
    (invoke : List RMsg → Except String (List RMsg)) (s : String)
    (rest : List RMsg) (u e1 e2 : String)
    (hp : invoke ((RMsg.system s :: rest) ++ [RMsg.human u]) = .error e1)
    (hf : invoke [RMsg.system s, RMsg.human u] = .error e2) :
    run_once invoke (RMsg.system s :: rest) u =
      { state := [RMsg.system s, RMsg.human u, RMsg.ai safe_reply []],
        final_text := safe_reply,
        tool_summaries := [],
        error_logs := ["InvalidUpdateError primary invoke: " ++ e1,
                       "InvalidUpdateError fallback invoke: " ++ e2],
        invocations := [(RMsg.system s :: rest) ++ [RMsg.human u],
                        [RMsg.system s, RMsg.human u]] } := by
  unfold run_once
  dsimp only
  rw [hp]
  simp only [List.take_succ_cons, List.take_zero, List.cons_append, List.nil_append]
  rw [hf]

open ReactAgent in
/-- Witness for C4 at a concrete always-failing engine and a three-message
conversation. -/
theorem run_once_merge_conflict_retry_and_apology_witness :
    run_once (fun _ => Except.error "boom")
        [RMsg.system "sys", RMsg.human "h1", RMsg.ai "a1" []] "q" =
      { state := [RMsg.system "sys", RMsg.human "q", RMsg.ai safe_reply []],
        final_text := safe_reply,
        tool_summaries := [],
        error_logs := ["InvalidUpdateError primary invoke: boom",
                       "InvalidUpdateError fallback invoke: boom"],
        invocations := [[RMsg.system "sys", RMsg.human "h1", RMsg.ai "a1" [],
                          RMsg.human "q"],
                        [RMsg.system "sys", RMsg.human "q"]] } :=
  run_once_merge_conflict_retry_and_apology (fun _ => Except.error "boom")
    "sys" [RMsg.human "h1", RMsg.ai "a1" []] "q" "boom" "boom" rfl rfl

open ReactAgent in
/-- C5 (counterexample): a model response with no capability requests but
empty content terminates the loop in one round, yet the turn's final text
is empty — refuting non-emptiness under the claim's hypotheses alone. -/
theorem run_once_plain_empty_content_gives_empty_final :
    graphRun llmEmptyPlain envTrivial 1 [RMsg.system "s", RMsg.human "q"] =
      some [RMsg.system "s", RMsg.human "q", RMsg.ai "" []] ∧
    (run_once (graphInvoke llmEmptyPlain envTrivial 1)
        [RMsg.system "s"] "q").final_text = "" :=
  ⟨rfl, rfl⟩

namespace ReactAgent

/-- If the model answers plainly once `N` reason rounds have happened,
the graph terminates within `N + 1` rounds, ending in the plain AI
answer. -/
theorem graphRun_reaches_plain (llm : List RMsg → AIResp) (env : ToolEnv)
    (N : Nat) (Hround : ∀ m, N ≤ countAI m → (llm m).tool_calls = []) :
    ∀ (n : Nat) (msgs : List RMsg), N ≤ countAI msgs + n →
      ∃ pre, graphRun llm env (n + 1) msgs =
          some (pre ++ [RMsg.ai (llm pre).content []]) ∧
        (llm pre).tool_calls = [] := by
  intro n
  induction n with
  | zero =>
      intro msgs h
      have htc := Hround msgs (by simpa using h)
      exact ⟨msgs, by simp [graphRun, htc], htc⟩
  | succ n ih =>
      intro msgs h
      by_cases htc : (llm msgs).tool_calls = []
      · exact ⟨msgs, by simp [graphRun, htc], htc⟩
      · have hcount : countAI ((msgs ++ [RMsg.ai (llm msgs).content (llm msgs).tool_calls]) ++
            (llm msgs).tool_calls.map
              (fun tc => RMsg.tool (env.run tc.name tc.args) (some tc.name) tc.id)) =
            countAI msgs + 1 := by
          simp only [countAI, List.countP_append, List.countP_cons, List.countP_nil,
            List.countP_map]
          have hz : List.countP
              ((fun m => match m with | RMsg.ai _ _ => true | _ => false) ∘
                (fun tc => RMsg.tool (env.run tc.name tc.args) (some tc.name) tc.id))
              (llm msgs).tool_calls = 0 := by
            apply List.countP_eq_zero.mpr
            intro x _
            simp [Function.comp]
          rw [hz]
          simp
        obtain ⟨pre, hpre, hpl⟩ :=
          ih ((msgs ++ [RMsg.ai (llm msgs).content (llm msgs).tool_calls]) ++
              (llm msgs).tool_calls.map
                (fun tc => RMsg.tool (env.run tc.name tc.args) (some tc.name) tc.id))
            (by rw [hcount]; omega)
        refine ⟨pre, ?_, hpl⟩
        obtain ⟨t, ts, hts⟩ : ∃ t ts, (llm msgs).tool_calls = t :: ts := by
          cases hx : (llm msgs).tool_calls with
          | nil => exact absurd hx htc
          | cons t ts => exact ⟨t, ts, rfl⟩
        rw [← hpre]
        conv_lhs => rw [graphRun]
        simp only [hts]

end ReactAgent

open ReactAgent in
/-- C5 (amended): if the model always answers plainly within a bounded
number of reason rounds, the iterative turn terminates within that bound
and the final text equals the terminating plain response's content — in
particular the final text is non-empty whenever the model's plain
responses are non-empty. -/
theorem run_once_bounded_rounds_amended (llm : List RMsg → AIResp)
    (env : ToolEnv) (N fuel : Nat) (stateMsgs : List RMsg) (u : String)
    (Hround : ∀ m, N ≤ countAI m → (llm m).tool_calls = [])
    (Hne : ∀ m, (llm m).tool_calls = [] → (llm m).content ≠ "")
    (Hfuel : N < fuel) :
    ∃ out, graphRun llm env fuel (stateMsgs ++ [RMsg.human u]) = some out ∧
      (run_once (graphInvoke llm env fuel) stateMsgs u).final_text =
        lastAIContent out ∧
      (run_once (graphInvoke llm env fuel) stateMsgs u).final_text ≠ "" := by
  obtain ⟨n, rfl⟩ : ∃ n, fuel = n + 1 := ⟨fuel - 1, by omega⟩
  obtain ⟨pre, hrun, hpl⟩ :=
    graphRun_reaches_plain llm env N Hround n (stateMsgs ++ [RMsg.human u])
      (by omega)
  have hinv : graphInvoke llm env (n + 1) (stateMsgs ++ [RMsg.human u]) =
      .ok (pre ++ [RMsg.ai (llm pre).content []]) := by
    simp [graphInvoke, hrun]
  have hlast : lastAIContent (pre ++ [RMsg.ai (llm pre).content []]) =
      (llm pre).content := by
    simp [lastAIContent, List.reverse_append, lastAIFrom]
  refine ⟨pre ++ [RMsg.ai (llm pre).content []], hrun, ?_, ?_⟩
  · simp [run_once, hinv]
  · simp only [run_once, hinv, hlast]
    exact Hne pre hpl

open ReactAgent in
/-- Witness for C5 (amended) at a model that answers `"ok"` immediately. -/
theorem run_once_bounded_rounds_amended_witness :
    ∃ out, graphRun llmPlainOk envTrivial 1 ([RMsg.system "s"] ++ [RMsg.human "q"]) =
        some out ∧
      (run_once (graphInvoke llmPlainOk envTrivial 1) [RMsg.system "s"] "q").final_text =
        lastAIContent out ∧
      (run_once (graphInvoke llmPlainOk envTrivial 1) [RMsg.system "s"] "q").final_text ≠ "" :=
  run_once_bounded_rounds_amended llmPlainOk envTrivial 0 1 [RMsg.system "s"] "q"
    (fun _ _ => rfl) (fun _ _ => show ("ok" : String) ≠ "" by decide) (by decide)

namespace ReactAgent

/-- Rewrite every request identifier in a message list (AI tool-call ids
and tool-message `tool_call_id`s) through `f`. -/
def mapIdsTC (f : String → String) (tc : RToolCall) : RToolCall :=
  { tc with id := f tc.id }

/-- The map `mapIdsTC` lifted to messages. -/
def mapToolIds (f : String → String) : List RMsg → List RMsg :=
  List.map (fun m => match m with
    | RMsg.ai c tcs => RMsg.ai c (tcs.map (mapIdsTC f))
    | RMsg.tool c nm tid => RMsg.tool c nm (f tid)
    | m => m)

/-- The summary walk never reads request identifiers. -/
theorem summaryLoop_mapToolIds (f : String → String) :
    ∀ (ms : List RMsg) (acc : List LogEntry),
      summaryLoop (mapToolIds f ms) acc = summaryLoop ms acc := by
  intro ms
  induction ms with
  | nil => intro acc; rfl
  | cons m rest ih =>
      intro acc
      cases m with
      | ai c tcs =>
          show summaryLoop (mapToolIds f rest)
              (acc ++ (tcs.map (mapIdsTC f)).map captureToolCall) =
            summaryLoop rest (acc ++ tcs.map captureToolCall)
          rw [List.map_map]
          have hcap : captureToolCall ∘ mapIdsTC f = captureToolCall :=
            funext (fun tc => rfl)
          rw [hcap]
          exact ih _
      | tool c nm tid => exact ih _
      | system c => exact ih _
      | human c => exact ih _

/-- Spec-side entry for identity-based pairing: like `LogEntry` but the
request identifier is retained. -/
structure LogEntryId where
  name : String
  args : String
  id : String
  result : Option String
deriving DecidableEq

/-- Capture that retains the request identifier (same name and argument
rendering as `captureToolCall`). -/
def captureToolCallId (tc : RToolCall) : LogEntryId :=
  { name := if tc.name == "" then "unknown_tool" else tc.name,
    args := match tc.args with
      | some d => String.intercalate ", " (d.map (fun kv => kv.1 ++ "=" ++ pyRepr kv.2))
      | none => "None",
    id := tc.id,
    result := none }

/-- Assign a result to the unresolved entry carrying the given request
identifier. -/
def assignById (tid : String) (content : String) : List LogEntryId → List LogEntryId
  | [] => []
  | e :: rest =>
    if e.result == none && e.id == tid then { e with result := some content } :: rest
    else e :: assignById tid content rest

/-- Name-based fallback over identity-carrying entries,
most-recent-unresolved-first. -/
def resolveByNameFromRight (nm : Option String) (content : String) :
    List LogEntryId → List LogEntryId × Bool
  | [] => ([], false)
  | e :: rest =>
    let (rest2, done) := resolveByNameFromRight nm content rest
    if done then (e :: rest2, true)
    else if e.result == none && (nm == none || nm == some e.name) then
      ({ e with result := some content } :: rest2, true)
    else (e :: rest2, false)

/-- Modelled from the spec: pair each capability-request entry with its
tool-result *by request identity*, falling back to name matching
(most-recent-unresolved-first) when no unresolved entry carries the
result's identifier. -/
def specResolve (tid : String) (nm : Option String) (content : String)
    (es : List LogEntryId) : List LogEntryId :=
  if es.any (fun e => e.result == none && e.id == tid) then assignById tid content es
  else (resolveByNameFromRight nm content es).1

/-- Modelled from the spec: the summary walk with identity-based pairing. -/
def specSummaryLoopById : List RMsg → List LogEntryId → List LogEntryId
  | [], acc => acc
  | RMsg.ai _ tcs :: ms, acc => specSummaryLoopById ms (acc ++ tcs.map captureToolCallId)
  | RMsg.tool content nm tid :: ms, acc => specSummaryLoopById ms (specResolve tid nm content acc)
  | _ :: ms, acc => specSummaryLoopById ms acc

/-- Rendering of an identity-carrying entry (same format). -/
def renderEntryId (e : LogEntryId) : String :=
  let s := e.name ++ "(" ++ e.args ++ ")"
  match e.result with
  | some r => if r == "" then s else s ++ " -> " ++ r
  | none => s

/-- Modelled from the spec: tool-activity summaries under identity-based
pairing. -/
def specSummariesById (delta : List RMsg) : List String :=
  (specSummaryLoopById delta []).map renderEntryId

/-- A post-call message delta with two same-named capability requests and
their two results, results arriving in request order. -/
def deltaA : List RMsg :=
  [RMsg.ai "" [⟨"f", some [], "1"⟩, ⟨"f", some [], "2"⟩],
   RMsg.tool "r1" (some "f") "1",
   RMsg.tool "r2" (some "f") "2"]

end ReactAgent

open ReactAgent in
/-- C6 (counterexample): on a delta with two same-named requests,
`run_once`'s summary computation attaches the first result to the most
recent unresolved entry — crossing the request identities — while the
spec's identity-based pairing keeps them straight; the two computations
disagree. -/
theorem computeSummaries_ignores_request_identity_cex :
    computeSummaries deltaA = ["f() -> r2", "f() -> r1"] ∧
    specSummariesById deltaA = ["f() -> r1", "f() -> r2"] ∧
    computeSummaries deltaA ≠ specSummariesById deltaA := by
  refine ⟨rfl, rfl, ?_⟩
  decide

open ReactAgent in
/-- C6 (amended): summaries are computed from the drop-by-pre-call-length
delta of a successful run; pairing is by name only,
most-recent-unresolved-first — request identifiers are never consulted
(rewriting them arbitrarily leaves the summaries unchanged) — and each
pair is rendered as `name(args) -> result`. -/
theorem tool_summaries_by_name_amended :
    (∀ (f : String → String) (delta : List RMsg),
        computeSummaries (mapToolIds f delta) = computeSummaries delta) ∧
    (∀ (invoke : List RMsg → Except String (List RMsg)) (stateMsgs : List RMsg)
        (u : String) (res : List RMsg),
        invoke (stateMsgs ++ [RMsg.human u]) = .ok res →
        (run_once invoke stateMsgs u).tool_summaries =
          computeSummaries (res.drop stateMsgs.length)) ∧
    computeSummaries deltaA = ["f() -> r2", "f() -> r1"] := by
  refine ⟨fun f delta => ?_, fun invoke stateMsgs u res hinv => ?_, rfl⟩
  · unfold computeSummaries
    rw [summaryLoop_mapToolIds]
  · unfold run_once
    dsimp only
    rw [hinv]

open ReactAgent in
/-- Witness for C6 (amended): a successful engine run whose output
extends the candidate list by `deltaA`. -/
theorem tool_summaries_by_name_amended_witness :
    (run_once (fun _ => Except.ok ([RMsg.system "s", RMsg.human "q"] ++ deltaA))
        [RMsg.system "s"] "q").tool_summaries =
      computeSummaries (([RMsg.system "s", RMsg.human "q"] ++ deltaA).drop 1) :=
  tool_summaries_by_name_amended.2.1
    (fun _ => Except.ok ([RMsg.system "s", RMsg.human "q"] ++ deltaA))
    [RMsg.system "s"] "q" ([RMsg.system "s", RMsg.human "q"] ++ deltaA) rfl

namespace AgentCore

/-- The tool loop only appends to the history it threads. -/
theorem toolLoop_extends (jd : String → Option JsonVal) :
    ∀ (tcs : List ToolCall) (hist tms : List Msg) (fs : FileState)
      (h2 tms2 : List Msg) (fs2 : FileState),
      toolLoop jd tcs hist tms fs = .ok (h2, tms2, fs2) →
      ∃ tl, h2 = hist ++ tl := by
  intro tcs
  induction tcs with
  | nil =>
      intro hist tms fs h2 tms2 fs2 h
      simp only [toolLoop, Except.ok.injEq, Prod.mk.injEq] at h
      exact ⟨[], by simp [← h.1]⟩
  | cons tc rest ih =>
      intro hist tms fs h2 tms2 fs2 h
      rw [toolLoop] at h
      split at h
      · obtain ⟨tl, htl⟩ := ih _ _ _ _ _ _ h
        exact ⟨[assistantToolCallMsg tc] ++ tl, by simp [htl]⟩
      · split at h
        · exact absurd h (by simp)
        · split at h
          · exact absurd h (by simp)
          · obtain ⟨tl, htl⟩ := ih _ _ _ _ _ _ h
            exact ⟨[assistantToolCallMsg tc] ++ tl, by simp [htl]⟩

/-- A plain model service answering `"ok"` with no capability requests. -/
def plainOracle : Oracle :=
  { withTools := fun _ => { content := some "ok", tool_calls := [] },
    noTools := fun _ => { content := some "ok", tool_calls := [] } }

end AgentCore

namespace ReactAgent

/-- The embedded graph only appends to the message list it is started
on. -/
theorem graphRun_extends (llm : List RMsg → AIResp) (env : ToolEnv) :
    ∀ (fuel : Nat) (msgs out : List RMsg),
      graphRun llm env fuel msgs = some out → ∃ tl, out = msgs ++ tl := by
  intro fuel
  induction fuel with
  | zero => intro msgs out h; exact absurd h (by simp [graphRun])
  | succ n ih =>
      intro msgs out h
      rw [graphRun] at h
      split at h
      · simp only [Option.some.injEq] at h
        exact ⟨[RMsg.ai (llm msgs).content (llm msgs).tool_calls], h.symm⟩
      · obtain ⟨tl, htl⟩ := ih _ _ h
        refine ⟨[RMsg.ai (llm msgs).content (llm msgs).tool_calls] ++
          (llm msgs).tool_calls.map
            (fun tc => RMsg.tool (env.run tc.name tc.args) (some tc.name) tc.id) ++ tl, ?_⟩
        simp [htl]

end ReactAgent

open ReactAgent in
/-- C7 (counterexample): in the retry/degraded path the iterative variant
rebuilds the conversation from the system message and the new user
message: with a two-failure engine and a three-message input conversation
the returned conversation does not extend the input. -/
theorem run_once_retry_discards_history_cex :
    ¬ ∃ tl, (run_once (fun _ => Except.error "x")
        [RMsg.system "s", RMsg.human "h1", RMsg.ai "a1" []] "q").state =
      [RMsg.system "s", RMsg.human "h1", RMsg.ai "a1" []] ++ tl := by
  rintro ⟨tl, htl⟩
  have hs : (run_once (fun _ => Except.error "x")
      [RMsg.system "s", RMsg.human "h1", RMsg.ai "a1" []] "q").state =
      [RMsg.system "s", RMsg.human "q", RMsg.ai safe_reply []] := rfl
  rw [hs] at htl
  have h2 : (some (RMsg.human "q") : Option RMsg) = some (RMsg.human "h1") :=
    congrArg (fun l => l.get? 1) htl
  exact absurd h2 (by decide)

/-- C7 (amended): every single-dispatch turn that returns preserves the
input conversation as a prefix (hence its first, system message), and so
does every iterative turn whose primary graph invocation succeeds; the
state-merge retry paths instead rebuild the conversation from the system
message and the new user message. -/
theorem conversation_append_only_amended :
    (∀ (oracle : AgentCore.Oracle) (jd : String → Option AgentCore.JsonVal)
        (history : List AgentCore.Msg) (u : String) (fs : AgentCore.FileState)
        (h2 : List AgentCore.Msg) (t : String) (fs2 : AgentCore.FileState)
        (tr : List AgentCore.CallKind),
        AgentCore.chat_once oracle jd history u fs = (.ok (h2, t, fs2), tr) →
        ∃ tl, h2 = history ++ tl) ∧
    (∀ (llm : List ReactAgent.RMsg → ReactAgent.AIResp) (env : ReactAgent.ToolEnv)
        (fuel : Nat) (stateMsgs : List ReactAgent.RMsg) (u : String)
        (out : List ReactAgent.RMsg),
        ReactAgent.graphRun llm env fuel (stateMsgs ++ [ReactAgent.RMsg.human u]) =
          some out →
        ∃ tl, (ReactAgent.run_once (ReactAgent.graphInvoke llm env fuel)
            stateMsgs u).state = stateMsgs ++ tl) := by
  constructor
  · intro oracle jd history u fs h2 t fs2 tr h
    rw [AgentCore.chat_once] at h
    dsimp only at h
    split at h
    · simp only [Prod.mk.injEq, Except.ok.injEq] at h
      exact ⟨[AgentCore.userMsg u, AgentCore.assistantTextMsg
        ((oracle.withTools (history ++ [AgentCore.userMsg u])).content.getD "")],
        by rw [← h.1.1]; simp⟩
    · rename_i tc rest
      split at h
      · exact absurd h (by simp)
      · rename_i h2x tms fs2x heq
        simp only [Prod.mk.injEq, Except.ok.injEq] at h
        obtain ⟨tl, htl⟩ := AgentCore.toolLoop_extends jd _ _ _ _ _ _ _ heq
        refine ⟨[AgentCore.userMsg u] ++ tl ++ tms ++
          [AgentCore.assistantTextMsg ((oracle.noTools (h2x ++ tms)).content.getD "")], ?_⟩
        rw [← h.1.1, htl]
        simp
  · intro llm env fuel stateMsgs u out h
    have hinv : ReactAgent.graphInvoke llm env fuel
        (stateMsgs ++ [ReactAgent.RMsg.human u]) = .ok out := by
      simp [ReactAgent.graphInvoke, h]
    obtain ⟨tl, htl⟩ := ReactAgent.graphRun_extends llm env fuel _ _ h
    refine ⟨[ReactAgent.RMsg.human u] ++ tl, ?_⟩
    rw [ReactAgent.run_once]
    dsimp only
    rw [hinv]
    simp [htl]

open ReactAgent in
/-- Witness for C7 (amended): both conjuncts applied at concrete turns
(a plain single-dispatch turn over a fresh conversation; a one-round
plain iterative turn). -/
theorem conversation_append_only_amended_witness :
    (∃ tl, [(⟨.system, some "sys", [], none, none⟩ : AgentCore.Msg),
        AgentCore.userMsg "hi", AgentCore.assistantTextMsg "ok"] =
      AgentCore.new_conversation "sys" ++ tl) ∧
    (∃ tl, (run_once (graphInvoke llmPlainOk envTrivial 1)
        [RMsg.system "s"] "q").state = [RMsg.system "s"] ++ tl) :=
  ⟨conversation_append_only_amended.1 AgentCore.plainOracle AgentCore.jdFail
      (AgentCore.new_conversation "sys") "hi" ⟨[], []⟩
      [⟨.system, some "sys", [], none, none⟩, AgentCore.userMsg "hi",
        AgentCore.assistantTextMsg "ok"] "ok" ⟨[], []⟩
      [AgentCore.CallKind.withTools] rfl,
   conversation_append_only_amended.2 llmPlainOk envTrivial 1 [RMsg.system "s"] "q"
      [RMsg.system "s", RMsg.human "q", RMsg.ai "ok" []] rfl⟩

namespace AgentCore

/-- The names bound at the top level of `agent_core.py` (its module
attributes: imports, constants, functions) — the names a
`from agent_core import ...` can resolve. -/
def agentCoreToplevelDefs : List String :=
  ["json", "os", "Path", "Dict", "List", "Tuple", "load_dotenv", "OpenAI",
   "PdfReader", "OPENAI_API_KEY", "MODEL", "client", "LEADS_CSV",
   "FEEDBACK_LOG", "_append_line", "record_customer_interest",
   "record_feedback", "TOOL_REGISTRY", "OPENAI_TOOLS",
   "load_business_context", "BUSINESS_CONTEXT", "SYSTEM_PROMPT",
   "new_conversation", "chat_once"]

end AgentCore

namespace ReactAgent

/-- The tool names declared to the model by `react_agent.py`'s `tools`
list (`StructuredTool.from_function` entries, in order). -/
def reactToolNames : List String :=
  ["record_customer_interest", "record_demo_request", "record_phone_contact",
   "record_feedback"]

/-- The names `react_agent.py` imports from `agent_core`. -/
def reactAgentCoreImports : List String :=
  ["record_customer_interest", "record_demo_request", "record_phone_contact",
   "record_feedback", "load_business_context"]

end ReactAgent

open AgentCore ReactAgent in
/-- C8 (code bug): the single-dispatch catalogue is exactly the two
capabilities of the purpose statement and each resolves in the registry,
but the iterative variant declares four tool names, two of which —
`record_demo_request` and `record_phone_contact` — are imported from
`agent_core`, which defines no such attributes: the import cannot
resolve, and the registry has no handler for them either. -/
theorem react_catalogue_two_names_unresolvable :
    registryNames = openaiToolNames ∧
    (openaiToolNames.all (fun n => (registryGet n).isSome)) = true ∧
    reactToolNames ≠ openaiToolNames ∧
    "record_demo_request" ∈ reactToolNames ∧
    "record_demo_request" ∈ reactAgentCoreImports ∧
    "record_demo_request" ∉ agentCoreToplevelDefs ∧
    "record_phone_contact" ∈ reactToolNames ∧
    "record_phone_contact" ∈ reactAgentCoreImports ∧
    "record_phone_contact" ∉ agentCoreToplevelDefs := by
  refine ⟨rfl, rfl, ?_, ?_, ?_, ?_, ?_, ?_, ?_⟩ <;> decide

namespace AgentCore

/-- Modelled from the spec (claim C9): a lead record with quote
characters normalized in *all* free-form fields (name and note). -/
def specNormalizedLeadLine (email name message : String) : String :=
  email ++ "," ++ dq ++ normQuotes name ++ dq ++ "," ++ dq ++
    normQuotes message ++ dq

/-- Normalization `normQuotes` leaves no double-quote character in its output. -/
theorem normQuotes_no_dquote (s : String) :
    (normQuotes s).data.all (fun c => c != dquote) = true := by
  rw [List.all_eq_true]
  intro x hx
  obtain ⟨c, _, rfl⟩ := List.mem_map.1 hx
  by_cases h : c = dquote
  · subst h; decide
  · simp [h]

end AgentCore

open AgentCore in
/-- C9 (counterexample): a double quote inside the `name` argument is
written to the lead record verbatim — the name field is not normalized,
so the record differs from the one with all free-form fields
normalized. -/
theorem record_customer_interest_name_quote_cex :
    (record_customer_interest "e@x.com" "a\"b" "note" ⟨[], []⟩).2.leads =
      ["e@x.com,\"a\"b\",\"note\""] ∧
    (record_customer_interest "e@x.com" "a\"b" "note" ⟨[], []⟩).2.leads ≠
      [specNormalizedLeadLine "e@x.com" "a\"b" "note"] := by
  refine ⟨rfl, ?_⟩
  decide

open AgentCore in
/-- C9 (amended): every lead-recording invocation appends exactly one
comma/quote-delimited record in which the free-text note has its quote
characters normalized to apostrophes (the normalized note contains no
double quote; the name and email fields are written verbatim), leaves the
feedback log untouched, and returns the short confirmation string. -/
theorem record_customer_interest_amended (email name message : String)
    (fs : FileState) :
    (record_customer_interest email name message fs).1 =
      "Recorded lead for " ++ name ++ " <" ++ email ++ ">." ∧
    (record_customer_interest email name message fs).2.leads =
      fs.leads ++ [pyRstrip (email ++ "," ++ dq ++ name ++ dq ++ "," ++ dq ++
        normQuotes message ++ dq)] ∧
    (record_customer_interest email name message fs).2.feedback = fs.feedback ∧
    (normQuotes message).data.all (fun c => c != dquote) = true :=
  ⟨rfl, rfl, rfl, normQuotes_no_dquote message⟩

namespace HeapModel

open ReactAgent

/-- A store of Python list objects (message lists); a reference is an
index into the store.  Allocation appends a cell, so a fresh reference is
the store's previous length. -/
structure Store where
  cells : List (List RMsg)
deriving DecidableEq

/-- Dereference (out-of-store reads default to the empty list; the frame
theorem only quantifies over valid references). -/
def Store.get (s : Store) (r : Nat) : List RMsg := (s.cells.get? r).getD []

/-- Allocate a fresh list object holding `v`; its reference is
`s.cells.length`. -/
def Store.push (s : Store) (v : List RMsg) : Store := ⟨s.cells ++ [v]⟩

/-- In-place mutation of the list object at `r` (Python `list.append`
rebuilds the cell's value). -/
def Store.write (s : Store) (r : Nat) (v : List RMsg) : Store := ⟨s.cells.set r v⟩

theorem get?_append_lt {α : Type} (l₂ : List α) :
    ∀ (l₁ : List α) (n : Nat), n < l₁.length → (l₁ ++ l₂).get? n = l₁.get? n := by
  intro l₁
  induction l₁ with
  | nil => intro n h; exact absurd h (by simp)
  | cons x xs ih =>
      intro n h
      cases n with
      | zero => rfl
      | succ n => exact ih n (by simpa using h)

theorem get?_set_ne {α : Type} (a : α) :
    ∀ (l : List α) (i j : Nat), i ≠ j → (l.set i a).get? j = l.get? j := by
  intro l
  induction l with
  | nil => intros; rfl
  | cons x xs ih =>
      intro i j hij
      cases i with
      | zero =>
          cases j with
          | zero => exact absurd rfl hij
          | succ j => rfl
      | succ i =>
          cases j with
          | zero => rfl
          | succ j => exact ih i j (fun h => hij (by rw [h]))

theorem get_push_lt (s : Store) (v : List RMsg) (r : Nat)
    (h : r < s.cells.length) : (s.push v).get r = s.get r := by
  simp only [Store.push, Store.get]
  rw [get?_append_lt _ _ _ h]

theorem length_push (s : Store) (v : List RMsg) :
    (s.push v).cells.length = s.cells.length + 1 := by
  simp [Store.push]

theorem get_write_ne (s : Store) (j : Nat) (v : List RMsg) (r : Nat)
    (h : j ≠ r) : (s.write j v).get r = s.get r := by
  simp only [Store.write, Store.get]
  rw [get?_set_ne _ _ _ _ h]

/-- Function `run_once` with Python lists as store references, following the
source's copies and mutations: the entry normalization copies the state's
list, `baseline_messages = list(...)` copies again, `candidate`,
`fallback` and the engine's result state are freshly constructed lists,
`result_messages = list(...)` copies the result, and the only in-place
mutation is `fallback_messages.append(...)` on the freshly allocated
fallback list.  Returns the final store, the reference held by the
returned state's message list, and the final text. -/
def run_once_heap (invoke : List RMsg → Except String (List RMsg))
    (s0 : Store) (stateRef : Nat) (u : String) : Store × Nat × String :=
  let s1 := s0.push (s0.get stateRef)
  let copyRef := s0.cells.length
  let s2 := s1.push (s1.get copyRef)
  let baseRef := s0.cells.length + 1
  let human := RMsg.human u
  let s3 := s2.push (s2.get baseRef ++ [human])
  let candRef := s0.cells.length + 2
  match invoke (s3.get candRef) with
  | .ok res =>
      let s4 := s3.push res
      let resRef := s0.cells.length + 3
      let s5 := s4.push (s4.get resRef)
      (s5, resRef, lastAIContent (s5.get (s0.cells.length + 4)))
  | .error _ =>
      let s4 := s3.push ((s3.get baseRef).take 1 ++ [human])
      let fbRef := s0.cells.length + 3
      match invoke (s4.get fbRef) with
      | .ok res =>
          let s5 := s4.push res
          let resRef := s0.cells.length + 4
          let s6 := s5.push (s5.get resRef)
          (s6, resRef, lastAIContent (s6.get (s0.cells.length + 5)))
      | .error _ =>
          let s5 := s4.write fbRef (s4.get fbRef ++ [RMsg.ai safe_reply []])
          (s5, fbRef, safe_reply)

end HeapModel

open HeapModel ReactAgent in
/-- C10: a turn of the iterative variant never mutates the caller's
message list — for every valid input reference, on every path (success,
retry success, double failure) the cell the caller holds is unchanged in
the final store, and the returned state's list is a different, freshly
allocated reference. -/
theorem run_once_heap_frame (invoke : List RMsg → Except String (List RMsg))
    (s0 : Store) (r : Nat) (u : String) (hr : r < s0.cells.length) :
    ((run_once_heap invoke s0 r u).1).get r = s0.get r ∧
    (run_once_heap invoke s0 r u).2.1 ≠ r := by
  unfold run_once_heap
  dsimp only
  split
  · constructor
    · rw [get_push_lt, get_push_lt, get_push_lt, get_push_lt, get_push_lt]
      all_goals first | omega | (simp [Store.push]; omega)
    · show s0.cells.length + 3 ≠ r
      omega
  · split
    · constructor
      · rw [get_push_lt, get_push_lt, get_push_lt, get_push_lt,
          get_push_lt, get_push_lt]
        all_goals first | omega | (simp [Store.push]; omega)
      · show s0.cells.length + 4 ≠ r
        omega
    · constructor
      · rw [get_write_ne, get_push_lt, get_push_lt, get_push_lt, get_push_lt]
        all_goals first | omega | (simp [Store.push]; omega)
      · show s0.cells.length + 3 ≠ r
        omega

open HeapModel ReactAgent in
/-- Witness for C10 at a one-cell store and an always-failing engine. -/
theorem run_once_heap_frame_witness :
    ((run_once_heap (fun _ => Except.error "e") ⟨[[RMsg.system "s"]]⟩ 0 "q").1).get 0 =
      Store.get ⟨[[RMsg.system "s"]]⟩ 0 ∧
    (run_once_heap (fun _ => Except.error "e") ⟨[[RMsg.system "s"]]⟩ 0 "q").2.1 ≠ 0 :=
  run_once_heap_frame (fun _ => Except.error "e") ⟨[[RMsg.system "s"]]⟩ 0 "q"
    (by decide)
